import Mathlib

/-!
Shallow embedding of the two UI components of this repository
(`src/components/InputField/InputField.tsx` and
`src/components/DataTable/DataTable.tsx`) and proofs about the
properties their specification states.

JavaScript conventions are modelled explicitly: optional string props are
`Option String`, and JS truthiness of such a prop (`undefined` and `""` are
falsy) is the `truthy` predicate below.
-/

namespace InputField

/-- JS truthiness of an optional string prop: `undefined` and `""` are falsy. -/
def truthy : Option String → Bool
  | none => false
  | some s => !(s == "")

/-- The props of `InputField` that affect the behaviour under study
(`InputFieldProps` in `InputField.tsx`). -/
structure InputFieldProps where
  label : Option String
  placeholder : Option String
  helperText : Option String
  errorMessage : Option String
  disabled : Bool
  invalid : Bool
  loading : Bool
  showClearButton : Bool
  value : Option String
  type : String
  id : Option String

/-- Local component state: `isPasswordVisible` (`useState(false)`). -/
structure InputLocalState where
  isPasswordVisible : Bool

/-- `describedById` from `InputField.tsx` line 78:
`invalid && errorMessage ? inputId-error : helperText ? inputId-help : undefined`. -/
def describedById (inputId : String) (invalid : Bool)
    (errorMessage helperText : Option String) : Option String :=
  if invalid && truthy errorMessage then some (inputId ++ "-error")
  else if truthy helperText then some (inputId ++ "-help")
  else none

/-- The observable outcome of one render of `InputField`. -/
structure InputRender where
  inputId : String
  currentType : String
  inputDisabled : Bool
  displayedValue : Option String
  ariaInvalid : Bool
  ariaDescribedBy : Option String
  labelRendered : Bool
  spinnerRendered : Bool
  clearButtonRendered : Bool
  clearButtonDisabled : Bool
  passwordToggleRendered : Bool
  passwordToggleDisabled : Bool
  helperRendered : Bool
  errorRendered : Bool

/-- One render of `InputField` as a function of props, local state and the
framework-generated id (`useId`), transcribed from the JSX of
`InputField.tsx` lines 39-185. -/
def render (p : InputFieldProps) (s : InputLocalState) (generatedId : String) :
    InputRender :=
  let inputId := p.id.getD generatedId
  { inputId := inputId
    currentType :=
      if p.type == "password" && s.isPasswordVisible then "text" else p.type
    inputDisabled := p.disabled || p.loading
    displayedValue := p.value
    ariaInvalid := p.invalid
    ariaDescribedBy := describedById inputId p.invalid p.errorMessage p.helperText
    labelRendered := truthy p.label
    spinnerRendered := p.loading
    clearButtonRendered := p.showClearButton && truthy p.value && !p.disabled
    clearButtonDisabled := false
    passwordToggleRendered := p.type == "password"
    passwordToggleDisabled := p.disabled || p.loading
    helperRendered := truthy p.helperText && !p.invalid
    errorRendered := truthy p.errorMessage && p.invalid }

/-- The clear button's click handler is exactly the caller-supplied `onClear`
callback: it leaves the component's local state untouched and invokes the
callback (the returned `Bool` records that the callback fired). -/
def handleClearClick (s : InputLocalState) : InputLocalState × Bool := (s, true)

end InputField

namespace DataTable

/-- Sort direction (`'ascending' | 'descending'` in `DataTable.tsx`). -/
inductive Direction where
  | ascending
  | descending
deriving DecidableEq, Repr

/-- A non-`null` `SortConfig<T>` value (`DataTable.tsx` lines 23-26); the
component state is `Option (SortConfig KF)`, `none` being `null`. -/
structure SortConfig (KF : Type) where
  key : KF
  direction : Direction
deriving DecidableEq, Repr

/-- A column definition (`Column<T>` in `DataTable.tsx` lines 4-10).
`KF` is the type of field keys (`keyof T`); a custom comparator returns a
JS number, modelled as `Int`. -/
structure Column (T KF : Type) where
  key : String
  title : String
  dataIndex : KF
  sortable : Bool
  sorter : Option (T → T → Int)

variable {T KF V K : Type}

/-- `requestSort` (`DataTable.tsx` lines 84-90): the state updater applied to
the previous sort config when the header of column `key` is clicked. -/
def requestSort [DecidableEq KF] (key : KF) (prev : Option (SortConfig KF)) :
    Option (SortConfig KF) :=
  match prev with
  | some cfg =>
      if cfg.key = key ∧ cfg.direction = .ascending then
        some ⟨key, .descending⟩
      else
        some ⟨key, .ascending⟩
  | none => some ⟨key, .ascending⟩

/-- A sequence of header clicks, folded through `requestSort` from a starting
sort config. -/
def runClicks [DecidableEq KF] (keys : List KF) (s : Option (SortConfig KF)) :
    Option (SortConfig KF) :=
  keys.foldl (fun s k => requestSort k s) s

/-- The default comparison of `DataTable.tsx` lines 70-74 on the field values
of two rows: `-1` when `a[key] < b[key]`, `1` when `a[key] > b[key]`, else
`0`. `get` reads field `key` of a row; `V` is the (ordered) value type. -/
def defaultCmp [LinearOrder V] (get : T → KF → V) (key : KF) (a b : T) : Int :=
  if get a key < get b key then -1
  else if get b key < get a key then 1
  else 0

/-- The comparator the sort actually uses for sort key `key`
(`DataTable.tsx` lines 60, 66-75): the custom `sorter` of the column found
by `c.dataIndex === key`, if that column exists and has one, else the
default field comparison. -/
def resolvedCmp [DecidableEq KF] [LinearOrder V] (get : T → KF → V)
    (columns : List (Column T KF)) (key : KF) : T → T → Int :=
  match (columns.find? (fun c => decide (c.dataIndex = key))).bind (·.sorter) with
  | some s => s
  | none => defaultCmp get key

/-- The direction multiplier (`DataTable.tsx` line 62). -/
def multiplier : Direction → Int
  | .ascending => 1
  | .descending => -1

/-- The comparator passed to the JS `sort` call on the decorated list
(`DataTable.tsx` lines 65-78): compare the items; on a tie compare the
original indices. Decorated elements are `(index, item)` pairs. -/
def jsCompare (cmp : T → T → Int) (m : Int) (a b : Nat × T) : Int :=
  let c := cmp a.2 b.2
  if c ≠ 0 then c * m else (a.1 : Int) - (b.1 : Int)

/-- The decorated sort (`DataTable.tsx` lines 63-78): pair each row with its
original index, then sort by `jsCompare`. The JS engine's sort is modelled
by `List.mergeSort`, taking `a` before `b` whenever the comparator is `≤ 0`. -/
def decoratedSort (cmp : T → T → Int) (m : Int) (data : List T) :
    List (Nat × T) :=
  (data.enum).mergeSort (fun a b => decide (jsCompare cmp m a b ≤ 0))

/-- `sortedData` (`DataTable.tsx` lines 56-82): the row order actually
rendered. With no sort config the data is returned as supplied; otherwise
decorate-sort-undecorate with the resolved comparator and the direction
multiplier. -/
def sortedData [DecidableEq KF] [LinearOrder V] (get : T → KF → V)
    (data : List T) (columns : List (Column T KF))
    (sc : Option (SortConfig KF)) : List T :=
  match sc with
  | none => data
  | some cfg =>
      (decoratedSort (resolvedCmp get columns cfg.key) (multiplier cfg.direction)
        data).map (·.2)

/-- The set of row identifiers present in a data collection
(`data.map(row => row.id)`); `rowId` reads the `id` field of a row. -/
def rowIds [DecidableEq K] (rowId : T → K) (data : List T) : Finset K :=
  (data.map rowId).toFinset

/-- The selection-relevant component state: the current `data` prop and the
`selectedRowIds` set (`DataTable.tsx` lines 38-39). -/
structure TableSelState (T K : Type) where
  data : List T
  selected : Finset K

/-- `handleSelectRow` (`DataTable.tsx` lines 100-105): the new selection set
and the row list handed to the `onRowSelect` callback. -/
def handleSelectRow [DecidableEq K] (rowId : T → K) (s : TableSelState T K)
    (i : K) (checked : Bool) : Finset K × List T :=
  let ns := if checked then insert i s.selected else s.selected.erase i
  (ns, s.data.filter (fun r => decide (rowId r ∈ ns)))

/-- `handleSelectAll` (`DataTable.tsx` lines 92-98): the new selection set and
the row list handed to the `onRowSelect` callback. -/
def handleSelectAll [DecidableEq K] (rowId : T → K) (s : TableSelState T K)
    (checked : Bool) : Finset K × List T :=
  let ns := if checked then rowIds rowId s.data else (∅ : Finset K)
  (ns, s.data.filter (fun r => decide (rowId r ∈ ns)))

/-- The events that can change the selection state: a row checkbox change, the
header checkbox change, and a change of the `data` prop (whose effect,
`DataTable.tsx` lines 52-54, clears the selection). -/
inductive SelEvent (T K : Type) where
  | selectRow (i : K) (checked : Bool)
  | selectAll (checked : Bool)
  | dataChange (newData : List T)

/-- The selection-state transition for one event. -/
def selStep [DecidableEq K] (rowId : T → K) (s : TableSelState T K) :
    SelEvent T K → TableSelState T K
  | .selectRow i checked => { s with selected := (handleSelectRow rowId s i checked).1 }
  | .selectAll checked => { s with selected := (handleSelectAll rowId s checked).1 }
  | .dataChange d => { data := d, selected := ∅ }

/-- An event the rendered UI can actually deliver: a row checkbox exists only
for a rendered row, so `selectRow` carries an identifier of the current data. -/
def ValidEvent [DecidableEq K] (rowId : T → K) (s : TableSelState T K) :
    SelEvent T K → Prop
  | .selectRow i _ => i ∈ rowIds rowId s.data
  | .selectAll _ => True
  | .dataChange _ => True

/-- The states reachable from the initial state (`useState(new Set())` with
the initial data) by valid events. -/
inductive Reachable [DecidableEq K] (rowId : T → K) (init : List T) :
    TableSelState T K → Prop
  | init : Reachable rowId init ⟨init, ∅⟩
  | step {s e} : Reachable rowId init s → ValidEvent rowId s e →
      Reachable rowId init (selStep rowId s e)

/-- The header checkbox's `checked` attribute (`DataTable.tsx` line 148):
`selectedRowIds.size === data.length && data.length > 0`. -/
def headerChecked [DecidableEq K] (s : TableSelState T K) : Bool :=
  decide (s.selected.card = s.data.length) && decide (s.data.length > 0)

/-- The header checkbox's `indeterminate` flag (`DataTable.tsx` lines 44-49):
`selectedRowIds.size > 0 && selectedRowIds.size < data.length`. -/
def headerIndeterminate [DecidableEq K] (s : TableSelState T K) : Bool :=
  decide (s.selected.card > 0) && decide (s.selected.card < s.data.length)

end DataTable

namespace DataTable

variable {T KF V K : Type}

/-- A comparator that is consistent in the sense the JS `sort` contract
requires: antisymmetric in sign and transitive on the non-positive side.
The default field comparison satisfies it; a caller-supplied `sorter` is
assumed to (an inconsistent comparator makes the JS sort's output
implementation-defined). -/
def LawfulCmp (cmp : T → T → Int) : Prop :=
  (∀ a b, cmp a b = -cmp b a) ∧
  (∀ a b c, cmp a b ≤ 0 → cmp b c ≤ 0 → cmp a c ≤ 0)

end DataTable

namespace InputField

/-- C1: at `invalid = true`, `errorMessage` absent, `helperText` supplied, the
rendered input's `aria-describedby` is the helper element's id even though
neither the helper nor the error element is rendered: the attribute
references an element that does not exist, contradicting the claim that it
equals the id of whichever description is currently shown and is absent
when neither is shown. -/
theorem c1_describedby_references_unrendered_element :
    (render ⟨none, none, some "Pick a strong value", none, false, true, false,
        false, some "v", "text", some "field"⟩ ⟨false⟩ "gen").ariaDescribedBy =
      some "field-help" ∧
    (render ⟨none, none, some "Pick a strong value", none, false, true, false,
        false, some "v", "text", some "field"⟩ ⟨false⟩ "gen").helperRendered =
      false ∧
    (render ⟨none, none, some "Pick a strong value", none, false, true, false,
        false, some "v", "text", some "field"⟩ ⟨false⟩ "gen").errorRendered =
      false :=
  ⟨rfl, rfl, rfl⟩

/-- C8 counterexample: with `invalid = true`, no error message and helper text
supplied, the claim's "otherwise helper text is shown iff helper text is
supplied" fails: this input is in the "otherwise" branch (no error text is
shown), helper text is supplied, yet the helper element is not rendered. -/
theorem c8_counterexample_helper_hidden_when_invalid :
    ((⟨none, none, some "h", none, false, true, false, false, some "v",
        "text", some "i"⟩ : InputFieldProps).invalid &&
      truthy (⟨none, none, some "h", none, false, true, false, false, some "v",
        "text", some "i"⟩ : InputFieldProps).errorMessage) = false ∧
    truthy (⟨none, none, some "h", none, false, true, false, false, some "v",
        "text", some "i"⟩ : InputFieldProps).helperText = true ∧
    (render ⟨none, none, some "h", none, false, true, false, false, some "v",
        "text", some "i"⟩ ⟨false⟩ "gen").helperRendered = false :=
  ⟨rfl, rfl, rfl⟩

/-- C8 (amended): helper and error text are mutually exclusive; error text is
shown iff `invalid` is true and an error message is supplied, and helper
text is shown iff helper text is supplied and `invalid` is false (so when
`invalid` is true and no error message is supplied, neither is shown). -/
theorem c8_helper_error_mutually_exclusive (p : InputFieldProps)
    (s : InputLocalState) (g : String) :
    ((render p s g).errorRendered = true ↔
      p.invalid = true ∧ truthy p.errorMessage = true) ∧
    ((render p s g).helperRendered = true ↔
      truthy p.helperText = true ∧ p.invalid = false) ∧
    ¬((render p s g).errorRendered = true ∧
      (render p s g).helperRendered = true) := by
  simp only [render, Bool.and_eq_true, Bool.not_eq_true']
  refine ⟨by tauto, by tauto, ?_⟩
  rintro ⟨⟨-, hinv⟩, -, hninv⟩
  simp [hinv] at hninv

/-- C8 witness: the amended statement instantiated at a concrete render with
an error message and `invalid = true`. -/
theorem c8_witness :
    ((render ⟨none, none, some "h", some "e", false, true, false, false,
        some "v", "text", some "i"⟩ ⟨false⟩ "gen").errorRendered = true ↔
      (true : Bool) = true ∧ truthy (some "e") = true) ∧
    (((render ⟨none, none, some "h", some "e", false, true, false, false,
        some "v", "text", some "i"⟩ ⟨false⟩ "gen").helperRendered = true) ↔
      truthy (some "h") = true ∧ (true : Bool) = false) ∧
    ¬((render ⟨none, none, some "h", some "e", false, true, false, false,
        some "v", "text", some "i"⟩ ⟨false⟩ "gen").errorRendered = true ∧
      (render ⟨none, none, some "h", some "e", false, true, false, false,
        some "v", "text", some "i"⟩ ⟨false⟩ "gen").helperRendered = true) :=
  c8_helper_error_mutually_exclusive
    ⟨none, none, some "h", some "e", false, true, false, false, some "v",
      "text", some "i"⟩ ⟨false⟩ "gen"

end InputField

namespace InputField

/-- C7: the clear affordance is rendered iff `showClearButton` is true, the
current value is truthy (non-empty) and the field is not disabled; clicking
it invokes the caller-supplied `onClear` callback, leaves the local state
unchanged and does not alter the displayed value (which is the caller-owned
`value` prop). -/
theorem c7_clear_affordance (p : InputFieldProps) (s : InputLocalState)
    (g : String) :
    ((render p s g).clearButtonRendered = true ↔
      p.showClearButton = true ∧ truthy p.value = true ∧ p.disabled = false) ∧
    handleClearClick s = (s, true) ∧
    (render p (handleClearClick s).1 g).displayedValue =
      (render p s g).displayedValue := by
  refine ⟨?_, rfl, rfl⟩
  simp only [render, Bool.and_eq_true, Bool.not_eq_true']
  tauto

/-- C7 witness: the statement instantiated at a concrete render whose clear
button is rendered. -/
theorem c7_witness :
    ((render ⟨none, none, none, none, false, false, false, true, some "abc",
        "text", some "i"⟩ ⟨false⟩ "gen").clearButtonRendered = true ↔
      (true : Bool) = true ∧ truthy (some "abc") = true ∧
        (false : Bool) = false) ∧
    handleClearClick ⟨false⟩ = (⟨false⟩, true) ∧
    (render ⟨none, none, none, none, false, false, false, true, some "abc",
        "text", some "i"⟩ (handleClearClick ⟨false⟩).1 "gen").displayedValue =
      (render ⟨none, none, none, none, false, false, false, true, some "abc",
        "text", some "i"⟩ ⟨false⟩ "gen").displayedValue :=
  c7_clear_affordance
    ⟨none, none, none, none, false, false, false, true, some "abc", "text",
      some "i"⟩ ⟨false⟩ "gen"

/-- C9: while `loading` is true and `disabled` is false, the input element is
disabled and the password-visibility toggle is disabled, but the clear
affordance (when `showClearButton` is true and the value is non-empty) is
still rendered and carries no disabled attribute, so the clear callback
remains reachable during loading. -/
theorem c9_clear_enabled_while_loading (p : InputFieldProps)
    (s : InputLocalState) (g : String) (hl : p.loading = true)
    (hd : p.disabled = false) :
    (render p s g).inputDisabled = true ∧
    (render p s g).passwordToggleDisabled = true ∧
    (p.showClearButton = true → truthy p.value = true →
      (render p s g).clearButtonRendered = true ∧
      (render p s g).clearButtonDisabled = false) := by
  refine ⟨by simp [render, hl, hd], by simp [render, hl, hd], ?_⟩
  intro hs hv
  exact ⟨by simp [render, hl, hd, hs, hv], rfl⟩

/-- C9 witness: a concrete loading, non-disabled render with a non-empty value
and `showClearButton` on. -/
theorem c9_witness :
    (render ⟨none, none, none, none, false, false, true, true, some "abc",
        "password", some "i"⟩ ⟨false⟩ "gen").inputDisabled = true ∧
    (render ⟨none, none, none, none, false, false, true, true, some "abc",
        "password", some "i"⟩ ⟨false⟩ "gen").passwordToggleDisabled = true ∧
    ((true : Bool) = true → truthy (some "abc") = true →
      (render ⟨none, none, none, none, false, false, true, true, some "abc",
        "password", some "i"⟩ ⟨false⟩ "gen").clearButtonRendered = true ∧
      (render ⟨none, none, none, none, false, false, true, true, some "abc",
        "password", some "i"⟩ ⟨false⟩ "gen").clearButtonDisabled = false) :=
  c9_clear_enabled_while_loading
    ⟨none, none, none, none, false, false, true, true, some "abc", "password",
      some "i"⟩ ⟨false⟩ "gen" rfl rfl

end InputField

namespace DataTable

variable {T KF V K : Type}

/-- C5: clicking a sortable header cycles its direction — first click from the
unsorted state yields ascending, clicking the active ascending column
yields descending, clicking the active descending column yields ascending
again; clicking a different column always yields ascending on that column;
and after any click exactly the clicked column is the (single) active one. -/
theorem c5_sort_direction_cycles [DecidableEq KF] (key k2 : KF) (d : Direction)
    (hne : k2 ≠ key) :
    requestSort key (none : Option (SortConfig KF)) =
      some ⟨key, .ascending⟩ ∧
    requestSort key (some ⟨key, .ascending⟩) = some ⟨key, .descending⟩ ∧
    requestSort key (some ⟨key, .descending⟩) = some ⟨key, .ascending⟩ ∧
    requestSort key (some ⟨k2, d⟩) = some ⟨key, .ascending⟩ ∧
    ∀ prev : Option (SortConfig KF), ∃ dir,
      requestSort key prev = some ⟨key, dir⟩ := by
    refine ⟨rfl, by simp [requestSort], by simp [requestSort], ?_, ?_⟩
    · simp [requestSort, hne]
    · intro prev
      match prev with
      | none => exact ⟨.ascending, rfl⟩
      | some cfg =>
        by_cases h : cfg.key = key ∧ cfg.direction = .ascending
        · exact ⟨.descending, by simp [requestSort, h]⟩
        · exact ⟨.ascending, by simp [requestSort, h]⟩

/-- C5 witness: the cycle at concrete keys `0` and `1`. -/
theorem c5_witness :
    requestSort (0 : Nat) (none : Option (SortConfig Nat)) =
      some ⟨0, .ascending⟩ ∧
    requestSort (0 : Nat) (some ⟨0, .ascending⟩) = some ⟨0, .descending⟩ ∧
    requestSort (0 : Nat) (some ⟨0, .descending⟩) = some ⟨0, .ascending⟩ ∧
    requestSort (0 : Nat) (some ⟨1, .descending⟩) = some ⟨0, .ascending⟩ ∧
    ∀ prev : Option (SortConfig Nat), ∃ dir,
      requestSort (0 : Nat) prev = some ⟨0, dir⟩ :=
  c5_sort_direction_cycles 0 1 .descending (by decide)

/-- C10: every click produces a non-`null` sort config, and folding any
further sequence of clicks from a non-`null` config stays non-`null`: once
a sortable header has been clicked, no sequence of interactions restores
the unsorted (`null`) initial state. -/
theorem c10_sort_config_never_null_again [DecidableEq KF] :
    (∀ (k : KF) (prev : Option (SortConfig KF)),
      (requestSort k prev).isSome = true) ∧
    (∀ (keys : List KF) (s : Option (SortConfig KF)), s.isSome = true →
      (runClicks keys s).isSome = true) := by
  have hsome : ∀ (k : KF) (prev : Option (SortConfig KF)),
      (requestSort k prev).isSome = true := by
    intro k prev
    match prev with
    | none => rfl
    | some cfg =>
      by_cases h : cfg.key = k ∧ cfg.direction = .ascending <;>
        simp [requestSort, h]
  refine ⟨hsome, ?_⟩
  intro keys
  induction keys with
  | nil => intro s h; exact h
  | cons k ks ih =>
    intro s _
    exact ih (requestSort k s) (hsome k s)

/-- C10 witness: after a first click on column `0`, two further clicks still
leave the sort config non-`null`. -/
theorem c10_witness :
    (runClicks [1, 0] (requestSort (0 : Nat)
      (none : Option (SortConfig Nat)))).isSome = true :=
  c10_sort_config_never_null_again.2 [1, 0] (requestSort 0 none)
    (c10_sort_config_never_null_again.1 0 none)

end DataTable

namespace DataTable

variable {T KF V K : Type}

/-- C2: in every state reachable by user interaction and data replacement,
`selectedRowIds` is a subset of the identifiers of the current data; and a
`data` change (any new list, identical content included) leaves the
selection empty in the resulting state. -/
theorem c2_selection_subset_and_cleared [DecidableEq K] (rowId : T → K)
    (init : List T) :
    (∀ s : TableSelState T K, Reachable rowId init s →
      s.selected ⊆ rowIds rowId s.data) ∧
    (∀ (s : TableSelState T K) (d : List T),
      (selStep rowId s (.dataChange d)).selected = ∅) := by
  constructor
  · intro s hs
    induction hs with
    | init => exact Finset.empty_subset _
    | step hr hv ih =>
      rename_i s' e
      cases e with
      | selectRow i c =>
        have hv' : i ∈ rowIds rowId s'.data := hv
        cases c with
        | true =>
          simp only [selStep, handleSelectRow, if_true]
          exact Finset.insert_subset hv' ih
        | false =>
          simp only [selStep, handleSelectRow, if_false]
          exact (Finset.erase_subset _ _).trans ih
      | selectAll c =>
        cases c with
        | true => simp [selStep, handleSelectAll]
        | false => simp [selStep, handleSelectAll]
      | dataChange d => exact Finset.empty_subset _
  · intro s d
    rfl

/-- C2 witness: selecting row `1` from the initial state over data `[1, 2]`
keeps the selection inside the data's identifiers, and a data change
empties a non-empty selection. -/
theorem c2_witness :
    (selStep (fun n : Nat => n) ⟨[1, 2], ∅⟩
        (.selectRow 1 true)).selected ⊆
      rowIds (fun n : Nat => n)
        (selStep (fun n : Nat => n) ⟨[1, 2], ∅⟩ (.selectRow 1 true)).data ∧
    (selStep (fun n : Nat => n) ⟨[1, 2], ({1} : Finset Nat)⟩
        (.dataChange [1, 2])).selected = ∅ :=
  ⟨(c2_selection_subset_and_cleared (fun n : Nat => n) [1, 2]).1 _
      (Reachable.step Reachable.init (by simp [ValidEvent, rowIds])),
    (c2_selection_subset_and_cleared (fun n : Nat => n) [1, 2]).2 _ _⟩

/-- C4: the header checkbox is checked iff the selection size equals the row
count and the row count is positive, indeterminate iff the selection size
is strictly between zero and the row count, and shows neither state
otherwise. -/
theorem c4_header_checkbox_states [DecidableEq K] (s : TableSelState T K) :
    (headerChecked s = true ↔
      s.selected.card = s.data.length ∧ 0 < s.data.length) ∧
    (headerIndeterminate s = true ↔
      0 < s.selected.card ∧ s.selected.card < s.data.length) ∧
    (¬(s.selected.card = s.data.length ∧ 0 < s.data.length) →
      ¬(0 < s.selected.card ∧ s.selected.card < s.data.length) →
      headerChecked s = false ∧ headerIndeterminate s = false) := by
  have hc : headerChecked s = true ↔
      s.selected.card = s.data.length ∧ 0 < s.data.length := by
    simp [headerChecked]
  have hi : headerIndeterminate s = true ↔
      0 < s.selected.card ∧ s.selected.card < s.data.length := by
    simp [headerIndeterminate]
  refine ⟨hc, hi, fun h1 h2 => ⟨?_, ?_⟩⟩
  · exact Bool.eq_false_iff.mpr fun h => h1 (hc.mp h)
  · exact Bool.eq_false_iff.mpr fun h => h2 (hi.mp h)

/-- C4 witness: with data `[1, 2]` and one selected row the header checkbox is
indeterminate and not checked. -/
theorem c4_witness :
    (headerChecked (⟨[1, 2], ({1} : Finset Nat)⟩ : TableSelState Nat Nat) =
        true ↔
      (({1} : Finset Nat)).card = ([1, 2] : List Nat).length ∧
        0 < ([1, 2] : List Nat).length) ∧
    (headerIndeterminate
        (⟨[1, 2], ({1} : Finset Nat)⟩ : TableSelState Nat Nat) = true ↔
      0 < (({1} : Finset Nat)).card ∧
        (({1} : Finset Nat)).card < ([1, 2] : List Nat).length) ∧
    (¬((({1} : Finset Nat)).card = ([1, 2] : List Nat).length ∧
        0 < ([1, 2] : List Nat).length) →
      ¬(0 < (({1} : Finset Nat)).card ∧
        (({1} : Finset Nat)).card < ([1, 2] : List Nat).length) →
      headerChecked (⟨[1, 2], ({1} : Finset Nat)⟩ : TableSelState Nat Nat) =
          false ∧
        headerIndeterminate
          (⟨[1, 2], ({1} : Finset Nat)⟩ : TableSelState Nat Nat) = false) :=
  c4_header_checkbox_states ⟨[1, 2], ({1} : Finset Nat)⟩

end DataTable

namespace DataTable

variable {T KF V K : Type}

/-- Filtering a data list by membership of the row identifier in a set `ns`
that only contains identifiers of the data yields rows whose identifiers
are exactly `ns`. -/
theorem filter_map_toFinset_of_subset [DecidableEq K] (rowId : T → K)
    (data : List T) (ns : Finset K) (h : ns ⊆ rowIds rowId data) :
    ((data.filter (fun r => decide (rowId r ∈ ns))).map rowId).toFinset = ns := by
  ext k
  simp only [List.mem_toFinset, List.mem_map, List.mem_filter,
    decide_eq_true_eq]
  constructor
  · rintro ⟨r, ⟨_, hmem⟩, rfl⟩
    exact hmem
  · intro hk
    have hk' := h hk
    simp only [rowIds, List.mem_toFinset, List.mem_map] at hk'
    obtain ⟨r, hr, rfl⟩ := hk'
    exact ⟨r, ⟨hr, hk⟩, rfl⟩

/-- C6: on a row-checkbox change and on a header-checkbox change, the list
handed to the selection-changed callback is a sublist of the data (so it is
in original data order) and, provided the current selection only holds
identifiers of the data and a checked row identifier is one of the data's,
its identifiers are exactly the new selection set. -/
theorem c6_callback_rows [DecidableEq K] (rowId : T → K)
    (s : TableSelState T K) (i : K) (checked : Bool)
    (hsel : s.selected ⊆ rowIds rowId s.data)
    (hi : checked = true → i ∈ rowIds rowId s.data) :
    ((handleSelectRow rowId s i checked).2.Sublist s.data ∧
      ((handleSelectRow rowId s i checked).2.map rowId).toFinset =
        (handleSelectRow rowId s i checked).1) ∧
    ∀ c : Bool, (handleSelectAll rowId s c).2.Sublist s.data ∧
      ((handleSelectAll rowId s c).2.map rowId).toFinset =
        (handleSelectAll rowId s c).1 := by
  constructor
  · constructor
    · exact List.filter_sublist _
    · apply filter_map_toFinset_of_subset
      cases checked with
      | true => simpa using Finset.insert_subset (hi rfl) hsel
      | false => simpa using (Finset.erase_subset _ _).trans hsel
  · intro c
    constructor
    · exact List.filter_sublist _
    · apply filter_map_toFinset_of_subset
      cases c with
      | true => simp
      | false => simp

/-- C6 witness: checking row `2` with row `1` already selected over data
`[1, 2]`. -/
theorem c6_witness :
    ((handleSelectRow (fun n : Nat => n) ⟨[1, 2], ({1} : Finset Nat)⟩ 2
        true).2.Sublist [1, 2] ∧
      ((handleSelectRow (fun n : Nat => n) ⟨[1, 2], ({1} : Finset Nat)⟩ 2
          true).2.map (fun n : Nat => n)).toFinset =
        (handleSelectRow (fun n : Nat => n) ⟨[1, 2], ({1} : Finset Nat)⟩ 2
          true).1) ∧
    ∀ c : Bool,
      (handleSelectAll (fun n : Nat => n) ⟨[1, 2], ({1} : Finset Nat)⟩
        c).2.Sublist [1, 2] ∧
      ((handleSelectAll (fun n : Nat => n) ⟨[1, 2], ({1} : Finset Nat)⟩
          c).2.map (fun n : Nat => n)).toFinset =
        (handleSelectAll (fun n : Nat => n) ⟨[1, 2], ({1} : Finset Nat)⟩
          c).1 :=
  c6_callback_rows (fun n : Nat => n) ⟨[1, 2], ({1} : Finset Nat)⟩ 2 true
    (by simp [rowIds]) (fun _ => by simp [rowIds])

end DataTable

namespace DataTable

variable {T KF V K : Type}

/-- The default field comparison is antisymmetric in sign. -/
theorem defaultCmp_antisymm [LinearOrder V] (get : T → KF → V) (key : KF)
    (a b : T) : defaultCmp get key a b = -defaultCmp get key b a := by
  simp only [defaultCmp]
  rcases lt_trichotomy (get a key) (get b key) with h | h | h
  · simp [h, not_lt.mpr h.le]
  · simp [h, lt_irrefl]
  · simp [h, not_lt.mpr h.le]

/-- The default field comparison is non-positive exactly when the first field
value is at most the second. -/
theorem defaultCmp_nonpos [LinearOrder V] (get : T → KF → V) (key : KF)
    (a b : T) : defaultCmp get key a b ≤ 0 ↔ get a key ≤ get b key := by
  simp only [defaultCmp]
  rcases lt_trichotomy (get a key) (get b key) with h | h | h
  · simp [h, not_lt.mpr h.le, h.le]
  · simp [h, lt_irrefl]
  · simp [h, not_lt.mpr h.le, not_le.mpr h]

/-- The default field comparison is a lawful comparator. -/
theorem lawful_defaultCmp [LinearOrder V] (get : T → KF → V) (key : KF) :
    LawfulCmp (defaultCmp get key) :=
  ⟨defaultCmp_antisymm get key, fun a b c h1 h2 =>
    (defaultCmp_nonpos get key a c).mpr
      (le_trans ((defaultCmp_nonpos get key a b).mp h1)
        ((defaultCmp_nonpos get key b c).mp h2))⟩

/-- A lawful comparator multiplied by `1` or `-1` is lawful. -/
theorem lawfulCmp_mul {cmp : T → T → Int} {m : Int} (h : LawfulCmp cmp)
    (hm : m = 1 ∨ m = -1) : LawfulCmp (fun a b => cmp a b * m) := by
  obtain ⟨hA, hT⟩ := h
  constructor
  · intro a b
    show cmp a b * m = -(cmp b a * m)
    have := hA a b
    rcases hm with rfl | rfl <;> omega
  · intro a b c h1 h2
    replace h1 : cmp a b * m ≤ 0 := h1
    replace h2 : cmp b c * m ≤ 0 := h2
    show cmp a c * m ≤ 0
    rcases hm with rfl | rfl
    · simp only [mul_one] at h1 h2 ⊢
      exact hT a b c h1 h2
    · have hba : cmp b a ≤ 0 := by have := hA a b; omega
      have hcb : cmp c b ≤ 0 := by have := hA b c; omega
      have := hT c b a hcb hba
      have := hA a c
      omega

/-- Strict-weak-order fact: a strictly negative comparison followed by a
non-positive one stays strictly negative. -/
theorem lawful_lt_le {cmp : T → T → Int} (h : LawfulCmp cmp) {a b c : T}
    (h1 : cmp a b < 0) (h2 : cmp b c ≤ 0) : cmp a c < 0 := by
  obtain ⟨hA, hT⟩ := h
  have hz := hT a b c (le_of_lt h1) h2
  rcases lt_or_eq_of_le hz with h' | h'
  · exact h'
  · exfalso
    have hca : cmp c a ≤ 0 := by have := hA a c; omega
    have := hT b c a h2 hca
    have := hA a b
    omega

/-- Strict-weak-order fact: a non-positive comparison followed by a strictly
negative one is strictly negative. -/
theorem lawful_le_lt {cmp : T → T → Int} (h : LawfulCmp cmp) {a b c : T}
    (h1 : cmp a b ≤ 0) (h2 : cmp b c < 0) : cmp a c < 0 := by
  obtain ⟨hA, hT⟩ := h
  have hz := hT a b c h1 (le_of_lt h2)
  rcases lt_or_eq_of_le hz with h' | h'
  · exact h'
  · exfalso
    have hca : cmp c a ≤ 0 := by have := hA a c; omega
    have := hT c a b hca h1
    have := hA b c
    omega

/-- Strict-weak-order fact: comparison ties are transitive. -/
theorem lawful_eq_eq {cmp : T → T → Int} (h : LawfulCmp cmp) {a b c : T}
    (h1 : cmp a b = 0) (h2 : cmp b c = 0) : cmp a c = 0 := by
  obtain ⟨hA, hT⟩ := h
  have hz := hT a b c (le_of_eq h1) (le_of_eq h2)
  have hcb : cmp c b = 0 := by have := hA b c; omega
  have hba : cmp b a = 0 := by have := hA a b; omega
  have := hT c b a (le_of_eq hcb) (le_of_eq hba)
  have := hA a c
  omega

end DataTable

namespace DataTable

variable {T KF V K : Type}

/-- With multiplier `1`, the tie-broken comparator is transitive on the
non-positive side. -/
theorem jsCompare_one_trans {cmp : T → T → Int} (h : LawfulCmp cmp)
    {a b c : Nat × T} (hab : jsCompare cmp 1 a b ≤ 0)
    (hbc : jsCompare cmp 1 b c ≤ 0) : jsCompare cmp 1 a c ≤ 0 := by
  simp only [jsCompare, mul_one] at hab hbc ⊢
  by_cases hx : cmp a.2 b.2 = 0 <;> by_cases hy : cmp b.2 c.2 = 0
  · rw [if_neg (fun hne => hne hx)] at hab
    rw [if_neg (fun hne => hne hy)] at hbc
    have hz : cmp a.2 c.2 = 0 := lawful_eq_eq h hx hy
    rw [if_neg (fun hne => hne hz)]
    omega
  · rw [if_pos hy] at hbc
    have hz : cmp a.2 c.2 < 0 :=
      lawful_le_lt h (le_of_eq hx) (lt_of_le_of_ne hbc hy)
    rw [if_pos (by omega)]
    omega
  · rw [if_pos hx] at hab
    have hz : cmp a.2 c.2 < 0 :=
      lawful_lt_le h (lt_of_le_of_ne hab hx) (le_of_eq hy)
    rw [if_pos (by omega)]
    omega
  · rw [if_pos hx] at hab
    rw [if_pos hy] at hbc
    have hz : cmp a.2 c.2 < 0 :=
      lawful_lt_le h (lt_of_le_of_ne hab hx) hbc
    rw [if_pos (by omega)]
    omega

/-- With multiplier `1`, the tie-broken comparator is total on the
non-positive side. -/
theorem jsCompare_one_total {cmp : T → T → Int} (h : LawfulCmp cmp)
    (a b : Nat × T) : jsCompare cmp 1 a b ≤ 0 ∨ jsCompare cmp 1 b a ≤ 0 := by
  have hA := h.1 a.2 b.2
  simp only [jsCompare, mul_one]
  split_ifs <;> omega

/-- For a `±1` multiplier, multiplying inside the comparator and using
multiplier `1` computes the same tie-broken comparison. -/
theorem jsCompare_mul {cmp : T → T → Int} {m : Int} (hm : m = 1 ∨ m = -1)
    (a b : Nat × T) :
    jsCompare cmp m a b = jsCompare (fun x y => cmp x y * m) 1 a b := by
  rcases hm with rfl | rfl <;> simp only [jsCompare] <;> split_ifs <;> omega

/-- The tie-broken comparator of a lawful comparator is transitive on the
non-positive side, for either direction multiplier. -/
theorem jsCompare_le_trans {cmp : T → T → Int} {m : Int} (h : LawfulCmp cmp)
    (hm : m = 1 ∨ m = -1) {a b c : Nat × T}
    (hab : jsCompare cmp m a b ≤ 0) (hbc : jsCompare cmp m b c ≤ 0) :
    jsCompare cmp m a c ≤ 0 := by
  rw [jsCompare_mul hm] at hab hbc ⊢
  exact jsCompare_one_trans (lawfulCmp_mul h hm) hab hbc

/-- The tie-broken comparator of a lawful comparator is total on the
non-positive side, for either direction multiplier. -/
theorem jsCompare_le_total {cmp : T → T → Int} {m : Int} (h : LawfulCmp cmp)
    (hm : m = 1 ∨ m = -1) (a b : Nat × T) :
    jsCompare cmp m a b ≤ 0 ∨ jsCompare cmp m b a ≤ 0 := by
  rw [jsCompare_mul hm, jsCompare_mul hm]
  exact jsCompare_one_total (lawfulCmp_mul h hm) a b

/-- The direction multiplier is `1` or `-1`. -/
theorem multiplier_one_or_neg_one (d : Direction) :
    multiplier d = 1 ∨ multiplier d = -1 := by
  cases d
  · exact Or.inl rfl
  · exact Or.inr rfl

/-- The decorated sort is a permutation of the index-decorated data. -/
theorem decoratedSort_perm (cmp : T → T → Int) (m : Int) (data : List T) :
    (decoratedSort cmp m data).Perm data.enum :=
  List.mergeSort_perm data.enum _

/-- For a lawful comparator and `±1` multiplier, the decorated sort is
pairwise ordered by the tie-broken comparator. -/
theorem decoratedSort_sorted {cmp : T → T → Int} {m : Int} (h : LawfulCmp cmp)
    (hm : m = 1 ∨ m = -1) (data : List T) :
    (decoratedSort cmp m data).Pairwise
      (fun a b => jsCompare cmp m a b ≤ 0) := by
  have htrans : ∀ a b c : Nat × T,
      decide (jsCompare cmp m a b ≤ 0) = true →
      decide (jsCompare cmp m b c ≤ 0) = true →
      decide (jsCompare cmp m a c ≤ 0) = true := fun a b c h1 h2 =>
    decide_eq_true (jsCompare_le_trans h hm (of_decide_eq_true h1)
      (of_decide_eq_true h2))
  have htotal : ∀ a b : Nat × T,
      (decide (jsCompare cmp m a b ≤ 0) ||
        decide (jsCompare cmp m b a ≤ 0)) = true := by
    intro a b
    rcases jsCompare_le_total h hm a b with h' | h' <;> simp [h']
  have hs := List.sorted_mergeSort htrans htotal data.enum
  exact hs.imp fun hab => of_decide_eq_true hab

/-- The decorated sort carries pairwise-distinct original indices. -/
theorem decoratedSort_index_nodup (cmp : T → T → Int) (m : Int)
    (data : List T) :
    (decoratedSort cmp m data).Pairwise (fun a b => a.1 ≠ b.1) := by
  have hperm := (decoratedSort_perm cmp m data).map Prod.fst
  have hnd : (data.enum.map Prod.fst).Nodup := by
    rw [List.enum_map_fst]
    exact List.nodup_range _
  have hnd' : ((decoratedSort cmp m data).map Prod.fst).Nodup :=
    hperm.symm.nodup hnd
  exact List.pairwise_map.mp hnd'

/-- For a lawful comparator and `±1` multiplier, the decorated sort is stable:
rows whose comparison yields a tie appear in increasing original-index
order. -/
theorem decoratedSort_stable {cmp : T → T → Int} {m : Int} (h : LawfulCmp cmp)
    (hm : m = 1 ∨ m = -1) (data : List T) :
    (decoratedSort cmp m data).Pairwise
      (fun a b => cmp a.2 b.2 = 0 → a.1 < b.1) := by
  have h1 := decoratedSort_sorted h hm data
  have h2 := decoratedSort_index_nodup cmp m data
  refine (h1.and h2).imp ?_
  rintro a b ⟨hle, hne⟩ hc
  simp [jsCompare, hc] at hle
  omega

end DataTable

namespace DataTable

variable {T KF V K : Type}

/-- C3: for any data, columns and active sort config, the rendered row order
is the decorate-sort-undecorate stable sort of the claim: it undecorates a
sort of the rows paired with their original indices (first conjunct, and
the decorated list is a permutation of the index-decorated data), the
decorated list is ordered by the resolved comparison — the column's custom
comparator if supplied, else the default field comparison — scaled by the
direction with original index as tie-break (third conjunct), rows with
equal comparison keys keep their original relative order in either
direction (fourth conjunct), and the output is a permutation of the data
(fifth conjunct). The resolved comparator is assumed consistent
(`LawfulCmp`), which the default comparison always is. -/
theorem c3_sorted_is_stable_dsu [DecidableEq KF] [LinearOrder V]
    (get : T → KF → V) (data : List T) (columns : List (Column T KF))
    (key : KF) (dir : Direction)
    (h : LawfulCmp (resolvedCmp get columns key)) :
    sortedData get data columns (some ⟨key, dir⟩) =
      (decoratedSort (resolvedCmp get columns key) (multiplier dir)
        data).map (·.2) ∧
    (decoratedSort (resolvedCmp get columns key) (multiplier dir)
      data).Perm data.enum ∧
    (decoratedSort (resolvedCmp get columns key) (multiplier dir)
      data).Pairwise (fun a b =>
        jsCompare (resolvedCmp get columns key) (multiplier dir) a b ≤ 0) ∧
    (decoratedSort (resolvedCmp get columns key) (multiplier dir)
      data).Pairwise (fun a b =>
        resolvedCmp get columns key a.2 b.2 = 0 → a.1 < b.1) ∧
    (sortedData get data columns (some ⟨key, dir⟩)).Perm data := by
  refine ⟨rfl, decoratedSort_perm _ _ _,
    decoratedSort_sorted h (multiplier_one_or_neg_one dir) data,
    decoratedSort_stable h (multiplier_one_or_neg_one dir) data, ?_⟩
  have hp := (decoratedSort_perm (resolvedCmp get columns key)
    (multiplier dir) data).map Prod.snd
  rw [List.enum_map_snd] at hp
  exact hp

/-- C3 witness: the spec's end-to-end rows `[(1,32),(2,28),(3,45)]` sorted by
the `age` field: the output is a permutation of the data and ties keep
original order. -/
theorem c3_witness :
    (sortedData (fun (r : Nat × Nat) (_ : Unit) => r.2)
        [(1, 32), (2, 28), (3, 45)] [⟨"age", "Age", (), true, none⟩]
        (some ⟨(), .ascending⟩)).Perm [(1, 32), (2, 28), (3, 45)] ∧
    (decoratedSort (resolvedCmp (fun (r : Nat × Nat) (_ : Unit) => r.2)
        [⟨"age", "Age", (), true, none⟩] ()) (multiplier .ascending)
        [(1, 32), (2, 28), (3, 45)]).Pairwise (fun a b =>
      resolvedCmp (fun (r : Nat × Nat) (_ : Unit) => r.2)
        [⟨"age", "Age", (), true, none⟩] () a.2 b.2 = 0 → a.1 < b.1) := by
  have h := c3_sorted_is_stable_dsu (fun (r : Nat × Nat) (_ : Unit) => r.2)
    [(1, 32), (2, 28), (3, 45)] [⟨"age", "Age", (), true, none⟩] ()
    Direction.ascending
    (lawful_defaultCmp (fun (r : Nat × Nat) (_ : Unit) => r.2) ())
  exact ⟨h.2.2.2.2, h.2.2.2.1⟩

end DataTable
